import Mathlib

/-!
Verification development for the Peripheral Reset and Enable Control (REC)
module (`src/rcc/rec.rs`) of an STM32H7 HAL.

The module is a single `peripheral_reset_and_enable_control!` macro invocation
that generates, for each peripheral in a declarative table, a zero-sized
capability token with `enable` / `disable` / `reset` / `low_power` methods and,
where applicable, kernel clock multiplexer accessors.  Every mutating method is
a masked read-modify-write of one field of a 32-bit RCC register, executed
inside `interrupt::free` (a critical section).

The embedding below models:
  * 32-bit register words as `Nat` together with the exact bit operations the
    svd2rust writer API performs (`set_bit`, `clear_bit`, `bit(b)`,
    `.variant(sel)` field writes);
  * the RCC register file relevant to this module (`AXBnENR`, `AXBnRSTR`,
    `AXBnLPENR`, `D3AMR` and the four `CCIP` kernel-clock registers);
  * the declarative peripheral table of the macro invocation (which bus each
    peripheral is on, which peripherals have an autonomous-mode bit, which own
    an individual kernel clock mux, and which belong to a shared mux group);
  * the bit positions of the individual fields, which come from the PAC
    (peripheral access crate) and are an injected address map from the point of
    view of this module; they are therefore a parameter (`Layout`).
-/

namespace Rec

/-! ### Bit-level primitives

These model the svd2rust write operations on a 32-bit register word. -/

/-- Writer operation `w.x().set_bit()` applied to the read value `r`:
set bit `i` of the word. -/
def bitSet (r i : Nat) : Nat := r ||| (1 <<< i)

/-- Writer operation `w.x().clear_bit()` applied to the read value `r`:
clear bit `i` of the 32-bit word. -/
def bitClear (r i : Nat) : Nat := r &&& ((2 ^ 32 - 1) ^^^ (1 <<< i))

/-- Writer operation `w.x().bit(b)`: write bit `i` of the word to `b`. -/
def bitWrite (r i : Nat) (b : Bool) : Nat := if b then bitSet r i else bitClear r i

/-- Writer operation `w.xsel().variant(sel)`: masked write of the field of
width `w` at offset `off`, leaving all other bits of the word alone. -/
def fieldSet (r off w v : Nat) : Nat :=
  (r &&& ((2 ^ 32 - 1) ^^^ ((2 ^ w - 1) <<< off))) ||| (v <<< off)

/-- Reader operation `r.xsel()`: extract the field of width `w` at offset
`off` from the word. -/
def fieldGet (r off w : Nat) : Nat := (r >>> off) &&& (2 ^ w - 1)

/-! ### The declarative peripheral table

The data below transcribes the single `peripheral_reset_and_enable_control!`
invocation at the bottom of `rec.rs`: which bus each peripheral belongs to,
which peripherals carry the `(Auto)` marker (autonomous-mode bit in `D3AMR`),
which own an individual kernel clock mux (`[kernel clk: ...]`), and which are
members of a shared group mux (`[group clk: ...]`).  `Art` (feature
`dualcore`) and `Dsi` (feature `dsi`) are included as listed in the table. -/

/-- The buses of the table: one `ENR` / `RSTR` / `LPENR` register word each. -/
inductive Bus
  | AHB1 | AHB2 | AHB3 | AHB4 | APB1L | APB1H | APB2 | APB3 | APB4
deriving DecidableEq

/-- The four kernel clock selection registers used by this module. -/
inductive CcipReg
  | d1ccipr | d2ccip1r | d2ccip2r | d3ccipr
deriving DecidableEq

/-- Every peripheral listed in the macro invocation. -/
inductive Peripheral
  | Eth1Mac | Dma2 | Dma1 | Art | Adc12
  | Hash | Crypt | Rng | Sdmmc2
  | Sdmmc1 | Qspi | Fmc | Jpgdec | Dma2d | Mdma
  | Bdma | Crc | Adc3
  | Gpioa | Gpiob | Gpioc | Gpiod | Gpioe | Gpiof | Gpiog | Gpioh
  | Gpioi | Gpioj | Gpiok
  | Dac12 | I2c1 | I2c2 | I2c3 | Cec | Lptim1 | Spi2 | Spi3
  | Tim2 | Tim3 | Tim4 | Tim5 | Tim6 | Tim7 | Tim12 | Tim13 | Tim14
  | Usart2 | Usart3 | Uart4 | Uart5 | Uart7 | Uart8
  | Fdcan | Swp | Crs | Mdios | Opamp
  | Hrtim | Dfsdm1 | Sai1 | Sai2 | Sai3 | Spi1 | Spi4 | Spi5
  | Tim1 | Tim8 | Tim15 | Tim16 | Tim17 | Usart1 | Usart6
  | Ltdc | Dsi
  | Vref | Comp12 | Lptim2 | Lptim3 | Lptim4 | Lptim5 | I2c4 | Spi6 | Sai4
deriving DecidableEq, Fintype

/-- Bus assignment of each peripheral, from the table headers (`AHB1, ... =>`). -/
def busOf : Peripheral → Bus
  | .Eth1Mac | .Dma2 | .Dma1 | .Art | .Adc12 => .AHB1
  | .Hash | .Crypt | .Rng | .Sdmmc2 => .AHB2
  | .Sdmmc1 | .Qspi | .Fmc | .Jpgdec | .Dma2d | .Mdma => .AHB3
  | .Bdma | .Crc | .Adc3 | .Gpioa | .Gpiob | .Gpioc | .Gpiod | .Gpioe
  | .Gpiof | .Gpiog | .Gpioh | .Gpioi | .Gpioj | .Gpiok => .AHB4
  | .Dac12 | .I2c1 | .I2c2 | .I2c3 | .Cec | .Lptim1 | .Spi2 | .Spi3
  | .Tim2 | .Tim3 | .Tim4 | .Tim5 | .Tim6 | .Tim7 | .Tim12 | .Tim13 | .Tim14
  | .Usart2 | .Usart3 | .Uart4 | .Uart5 | .Uart7 | .Uart8 => .APB1L
  | .Fdcan | .Swp | .Crs | .Mdios | .Opamp => .APB1H
  | .Hrtim | .Dfsdm1 | .Sai1 | .Sai2 | .Sai3 | .Spi1 | .Spi4 | .Spi5
  | .Tim1 | .Tim8 | .Tim15 | .Tim16 | .Tim17 | .Usart1 | .Usart6 => .APB2
  | .Ltdc | .Dsi => .APB3
  | .Vref | .Comp12 | .Lptim2 | .Lptim3 | .Lptim4 | .Lptim5 | .I2c4
  | .Spi6 | .Sai4 => .APB4

/-- Whether the peripheral carries the `(Auto)` marker in the table, in which
case `low_power` additionally writes the peripheral's AMEN bit in `D3AMR`
(see the `autonomous!` macro). -/
def hasAuto : Peripheral → Bool
  | .Bdma | .Crc | .Adc3 | .Vref | .Comp12 | .Lptim2 | .Lptim3 | .Lptim4
  | .Lptim5 | .I2c4 | .Spi6 | .Sai4 => true
  | _ => false

/-- One constructor per kernel clock selector field appearing in the table:
the individually-owned muxes (`[kernel clk: ...]`) followed by the shared
group muxes (`[group clk: ...]`). -/
inductive MuxField
  | Rng | Qspi | Fmc | Cec | Lptim1 | Fdcan | Swp | Dfsdm1 | Sai1
  | Lptim2 | I2c4 | Spi6 | Sai4A | Sai4B
  | Adc | Sdmmc | I2c123 | Spi123 | Usart234578 | Sai23 | Spi45
  | Usart16 | Lptim345
deriving DecidableEq, Fintype

/-- The CCIP register that holds each selector field, as written in the table
(the `$ccip` argument). -/
def ccipOf : MuxField → CcipReg
  | .Qspi | .Fmc | .Sdmmc => .d1ccipr
  | .Fdcan | .Swp | .Dfsdm1 | .Sai1 | .Spi123 | .Sai23 | .Spi45 => .d2ccip1r
  | .Rng | .Cec | .Lptim1 | .I2c123 | .Usart234578 | .Usart16 => .d2ccip2r
  | .Lptim2 | .I2c4 | .Spi6 | .Sai4A | .Sai4B | .Adc | .Lptim345 => .d3ccipr

/-- Whether the field is a shared group mux (write entry point hosted on
`PeripheralREC`) as opposed to an individually-owned mux. -/
def isGroupMux : MuxField → Bool
  | .Adc | .Sdmmc | .I2c123 | .Spi123 | .Usart234578 | .Sai23 | .Spi45
  | .Usart16 | .Lptim345 => true
  | _ => false

/-- Whether the field carries the `(Variant)` marker in the table: the PAC
leaves one or more bit patterns of the field reserved, so reads return
`stm32h7::Variant<u8, T>` instead of the plain enum. -/
def muxVariant : MuxField → Bool
  | .Cec | .Lptim1 | .Fdcan | .Sai1 | .Lptim2 | .Spi6 | .Sai4A | .Sai4B
  | .Adc | .Spi123 | .Usart234578 | .Sai23 | .Spi45 | .Usart16
  | .Lptim345 => true
  | _ => false

/-- The individually-owned kernel clock muxes of each peripheral
(`[kernel clk: ...]` entries; `Sai4` owns two). -/
def indivMuxesOf : Peripheral → List MuxField
  | .Rng => [.Rng]
  | .Qspi => [.Qspi]
  | .Fmc => [.Fmc]
  | .Cec => [.Cec]
  | .Lptim1 => [.Lptim1]
  | .Fdcan => [.Fdcan]
  | .Swp => [.Swp]
  | .Dfsdm1 => [.Dfsdm1]
  | .Sai1 => [.Sai1]
  | .Lptim2 => [.Lptim2]
  | .I2c4 => [.I2c4]
  | .Spi6 => [.Spi6]
  | .Sai4 => [.Sai4A, .Sai4B]
  | _ => []

/-- The shared group mux a peripheral is a member of, if any
(`[group clk: ...]` entries). -/
def groupOf : Peripheral → Option MuxField
  | .Adc12 | .Adc3 => some .Adc
  | .Sdmmc1 | .Sdmmc2 => some .Sdmmc
  | .I2c1 | .I2c2 | .I2c3 => some .I2c123
  | .Spi1 | .Spi2 | .Spi3 => some .Spi123
  | .Usart2 | .Usart3 | .Uart4 | .Uart5 | .Uart7 | .Uart8 => some .Usart234578
  | .Sai2 | .Sai3 => some .Sai23
  | .Spi4 | .Spi5 => some .Spi45
  | .Usart1 | .Usart6 => some .Usart16
  | .Lptim3 | .Lptim4 | .Lptim5 => some .Lptim345
  | _ => none

/-! ### The injected address map

The bit position of each peripheral's EN / RST / LPEN / AMEN bit and the
offset, width and value enumeration of each selector field come from the PAC,
not from `rec.rs` (the spec lists the hardware register file as an external
collaborator whose address map is consumed as given).  They are collected in a
`Layout` parameter. -/

/-- The injected address map: bit positions of the per-peripheral bits and
the position, width and known-value predicate of each selector field.
`selKnown m v` says whether raw code `v` of field `m` is an enumerated value
of the PAC enum (for fields without the `(Variant)` marker the PAC fully
enumerates the field, so `selKnown` is true on every code that fits). -/
structure Layout where
  enBit : Peripheral → Nat
  rstBit : Peripheral → Nat
  lpenBit : Peripheral → Nat
  amenBit : Peripheral → Nat
  muxOff : MuxField → Nat
  muxWidth : MuxField → Nat
  selKnown : MuxField → Nat → Bool

/-! ### The RCC register state and the token operations -/

/-- The state of the RCC registers this module touches: the enable, reset and
low-power-enable word of every bus, the D3 autonomous mode register, and the
four kernel clock selection registers. -/
structure RCCState where
  enr : Bus → Nat
  rstr : Bus → Nat
  lpenr : Bus → Nat
  d3amr : Nat
  ccip : CcipReg → Nat

/-- Pointwise update of one bus register word. -/
def updBus (f : Bus → Nat) (b : Bus) (v : Nat) : Bus → Nat :=
  fun x => if x = b then v else f x

/-- Pointwise update of one CCIP register word. -/
def updCcip (f : CcipReg → Nat) (c : CcipReg) (v : Nat) : CcipReg → Nat :=
  fun x => if x = c then v else f x

/-- The clock gating state of a peripheral in low-power mode. -/
inductive LowPowerMode
  | Off
  | Enabled
  | Autonomous
deriving DecidableEq

/-- The default `LowPowerMode` is `Enabled`. -/
def LowPowerMode.default : LowPowerMode := .Enabled

/-- Method `enable` of `impl ResetEnable for $p`: inside one critical section,
read-modify-write of the bus enable register setting this peripheral's EN bit
(`enr.modify(|_, w| w.en().set_bit())`). -/
def enable (L : Layout) (p : Peripheral) (s : RCCState) : RCCState :=
  { s with enr := updBus s.enr (busOf p) (bitSet (s.enr (busOf p)) (L.enBit p)) }

/-- Method `disable`: masked clear of the same EN bit
(`enr.modify(|_, w| w.en().clear_bit())`). -/
def disable (L : Layout) (p : Peripheral) (s : RCCState) : RCCState :=
  { s with enr := updBus s.enr (busOf p) (bitClear (s.enr (busOf p)) (L.enBit p)) }

/-- First committed write of `reset`: `rstr.modify(|_, w| w.rst().set_bit())`. -/
def reset_set (L : Layout) (p : Peripheral) (s : RCCState) : RCCState :=
  { s with rstr := updBus s.rstr (busOf p) (bitSet (s.rstr (busOf p)) (L.rstBit p)) }

/-- Second committed write of `reset`: `rstr.modify(|_, w| w.rst().clear_bit())`. -/
def reset_clear (L : Layout) (p : Peripheral) (s : RCCState) : RCCState :=
  { s with rstr := updBus s.rstr (busOf p) (bitClear (s.rstr (busOf p)) (L.rstBit p)) }

/-- Method `reset`: inside one critical section, set the peripheral's RST bit
and then immediately clear it again. -/
def reset (L : Layout) (p : Peripheral) (s : RCCState) : RCCState :=
  reset_clear L p (reset_set L p s)

/-- The sequence of values the `reset` method commits to the bus reset
register, in program order. -/
def resetWriteSeq (L : Layout) (p : Peripheral) (s : RCCState) : List Nat :=
  [(reset_set L p s).rstr (busOf p), (reset L p s).rstr (busOf p)]

/-- Method `low_power`: inside one critical section, write the peripheral's
LPEN bit in the bus low-power enable register to `lpm != Off`; then, only for
peripherals carrying the `(Auto)` marker, write the peripheral's AMEN bit in
`D3AMR` to `lpm == Autonomous` (the `$( ... )*` expansion over `$Auto`). -/
def low_power (L : Layout) (p : Peripheral) (lpm : LowPowerMode)
    (s : RCCState) : RCCState :=
  let lpw := bitWrite (s.lpenr (busOf p)) (L.lpenBit p)
    (decide (lpm ≠ LowPowerMode.Off))
  let s1 : RCCState := { s with lpenr := updBus s.lpenr (busOf p) lpw }
  if hasAuto p then
    let amw := bitWrite s1.d3amr (L.amenBit p)
      (decide (lpm = LowPowerMode.Autonomous))
    { s1 with d3amr := amw }
  else s1

/-- Result of reading a kernel clock mux field.  For fields with the
`(Variant)` marker this is `stm32h7::Variant<u8, T>`: `val c` is
`Variant::Val` carrying the enumerated source whose raw code is `c`, and
`res bits` is `Variant::Res` carrying an unrecognized raw code.  For fully
enumerated fields every read produces `val`. -/
inductive MuxReadResult
  | val (code : Nat)
  | res (bits : Nat)
deriving DecidableEq

/-- Shared body of the mux setters: inside one critical section, masked
read-modify-write of the selector field in its CCIP register
(`ccip.modify(|_, w| w.sel().variant(sel))`).  `sel` is the raw code of the
enumerated selector value. -/
def muxWrite (L : Layout) (m : MuxField) (sel : Nat) (s : RCCState) :
    RCCState :=
  let fw := fieldSet (s.ccip (ccipOf m)) (L.muxOff m) (L.muxWidth m) sel
  { s with ccip := updCcip s.ccip (ccipOf m) fw }

/-- Shared body of the mux getters: unsynchronized read of the selector field
(`ccip.read().sel().variant()`), decoded through the PAC enumeration. -/
def muxRead (L : Layout) (m : MuxField) (s : RCCState) : MuxReadResult :=
  let bits := fieldGet (s.ccip (ccipOf m)) (L.muxOff m) (L.muxWidth m)
  if L.selKnown m bits then .val bits else .res bits

/-- Method `kernel_<x>_mux` generated on a token that owns the individual mux
`m` (`m ∈ indivMuxesOf p` at every use site).  Consumes and returns the token;
the register effect is the masked field write. -/
def kernel_x_mux (L : Layout) (m : MuxField) (sel : Nat) (s : RCCState) :
    RCCState :=
  muxWrite L m sel s

/-- Method `get_kernel_<x>_mux` generated on a token that owns the individual
mux `m`.  It takes the token by shared reference (`&self`); the returned state
is the state after the call. -/
def get_kernel_x_mux (L : Layout) (m : MuxField) (s : RCCState) :
    MuxReadResult × RCCState :=
  (muxRead L m s, s)

/-- Trait method `get_kernel_clk_mux` of `<Group>ClkSelGetter`, implemented by
every member of the shared group `g`.  Takes the token by shared reference;
the returned state is the state after the call. -/
def get_kernel_clk_mux (L : Layout) (g : MuxField) (s : RCCState) :
    MuxReadResult × RCCState :=
  (muxRead L g s, s)

/-- Method `kernel_<group>_clk_mux` hosted on `PeripheralREC` (`&mut self`:
it demands exclusive access to the whole registry, which no holder of a moved
out member token has).  The register effect is the masked field write of the
shared selector. -/
def kernel_xxxx_clk_mux (L : Layout) (g : MuxField) (sel : Nat)
    (s : RCCState) : RCCState :=
  muxWrite L g sel s

/-! ### The operations reachable through a member token

For the shared-mux claims we enumerate the methods callable on an individual
peripheral token, as generated by the macro: `enable`, `disable`, `reset`,
`low_power`, and `kernel_<x>_mux` for each individually-owned mux of the
peripheral.  The getters take `&self` and write nothing, so they are not
state transformers.  No group mux setter appears here: the macro hosts it on
`PeripheralREC` only. -/

/-- One method call on a peripheral token. -/
inductive TokenOp
  | enableOp
  | disableOp
  | resetOp
  | lowPowerOp (lpm : LowPowerMode)
  | kernelMuxOp (m : MuxField) (sel : Nat)

/-- Whether the macro generates the method on peripheral `p`:
`kernel_<x>_mux` exists only for the individually-owned muxes of `p`. -/
def opAvail (p : Peripheral) : TokenOp → Prop
  | .kernelMuxOp m _ => m ∈ indivMuxesOf p
  | _ => True

/-- The register effect of one token method call. -/
def runTokenOp (L : Layout) (p : Peripheral) (op : TokenOp) (s : RCCState) :
    RCCState :=
  match op with
  | .enableOp => enable L p s
  | .disableOp => disable L p s
  | .resetOp => reset L p s
  | .lowPowerOp lpm => low_power L p lpm s
  | .kernelMuxOp m sel => kernel_x_mux L m sel s

/-! ### Interrupt preemption model

Every mutating method wraps its whole read-modify-write in `interrupt::free`,
so from the point of view of an interrupt handler each method is a single
atomic action: the handler can run before or after the critical section but
not inside it.  An execution of two contexts is any order-preserving
interleaving of their lists of atomic actions. -/

/-- One atomic (critical-section protected) state transformation. -/
def Act : Type := RCCState → RCCState

/-- Run a sequence of atomic actions in order. -/
def runActs (acts : List Act) (s : RCCState) : RCCState :=
  acts.foldl (fun t f => f t) s

/-- All order-preserving interleavings of two sequences of atomic actions. -/
def interleavings {α : Type} : List α → List α → List (List α)
  | [], ys => [ys]
  | xs, [] => [xs]
  | x :: xs, y :: ys =>
      (interleavings xs (y :: ys)).map (fun t => x :: t) ++
        (interleavings (x :: xs) ys).map (fun t => y :: t)
termination_by xs ys => xs.length + ys.length

/-- The atomic actions of `enable`: one critical section containing the whole
read-modify-write. -/
def enableActs (L : Layout) (p : Peripheral) : List Act :=
  [fun s => enable L p s]

/-- The atomic actions of `disable`: one critical section. -/
def disableActs (L : Layout) (p : Peripheral) : List Act :=
  [fun s => disable L p s]

/-- The atomic actions of `reset`: one critical section containing both the
setting and the clearing write. -/
def resetActs (L : Layout) (p : Peripheral) : List Act :=
  [fun s => reset_clear L p (reset_set L p s)]

/-! ### The capability registry and Rust move semantics

`PeripheralREC` is a struct with exactly one field (named slot) per
peripheral of the table, each holding that peripheral's zero-sized token;
`new_singleton` (and `Rcc::steal_peripheral_rec`, which simply calls it)
constructs it with every slot filled.  Rust move semantics for struct fields
are modelled explicitly: a slot can be moved out only while it is still
present, and moving it out leaves it empty.  `present p = true` means the
named slot for `p` still holds its token. -/

/-- Slot state of the `PeripheralREC` struct. -/
structure PeripheralREC where
  present : Peripheral → Bool

/-- Associated function `PeripheralREC::new_singleton` (also reached through
`Rcc::steal_peripheral_rec`): the registry with every named slot holding its
token — exactly one token per peripheral of the table. -/
def new_singleton : PeripheralREC :=
  ⟨fun _ => true⟩

/-- Moving the token for `p` out of its named slot (Rust field move-out).
Returns the token when the slot still holds it, and the registry with that
slot now empty; a move out of an emptied slot is rejected. -/
def takeToken (p : Peripheral) (rec : PeripheralREC) :
    Option Unit × PeripheralREC :=
  if rec.present p then
    (some (), ⟨fun q => if q = p then false else rec.present q⟩)
  else
    (none, rec)

/-! ### Concrete instances used by the witnesses -/

/-- A concrete address map used to instantiate the theorems on concrete
inputs: EN bits 0 and 1 for `Dma1` and `Dma2`, every selector field two bits
wide at offset 4 with raw code 3 reserved. -/
def demoLayout : Layout where
  enBit := fun p => match p with | .Dma1 => 0 | .Dma2 => 1 | _ => 2
  rstBit := fun _ => 3
  lpenBit := fun _ => 4
  amenBit := fun _ => 5
  muxOff := fun _ => 4
  muxWidth := fun _ => 2
  selKnown := fun _ v => decide (v < 3)

/-- A concrete register file state with every register word holding 9. -/
def demoState : RCCState where
  enr := fun _ => 9
  rstr := fun _ => 9
  lpenr := fun _ => 9
  d3amr := 9
  ccip := fun _ => 9

/-! ### Basic lemmas about the primitives -/

theorem one_shiftLeft_eq (i : Nat) : 1 <<< i = 2 ^ i := by
  simp [Nat.shiftLeft_eq]

theorem testBit_bitSet (r i j : Nat) :
    (bitSet r i).testBit j = (r.testBit j || decide (j = i)) := by
  simp [bitSet, one_shiftLeft_eq, Nat.testBit_two_pow, eq_comm]

theorem testBit_allOnes32 (j : Nat) :
    Nat.testBit 4294967295 j = decide (j < 32) := by
  have h : (4294967295 : Nat) = 2 ^ 32 - 1 := by norm_num
  rw [h, Nat.testBit_two_pow_sub_one]

theorem testBit_bitClear (r i j : Nat) (hj : j < 32) :
    (bitClear r i).testBit j = (r.testBit j && !decide (j = i)) := by
  simp [bitClear, one_shiftLeft_eq, Nat.testBit_two_pow, testBit_allOnes32,
    hj, eq_comm]

theorem testBit_bitWrite (r i : Nat) (b : Bool) (j : Nat) (hj : j < 32) :
    (bitWrite r i b).testBit j =
      (if j = i then b else r.testBit j) := by
  rcases b with _ | _ <;>
    simp [bitWrite, testBit_bitSet, testBit_bitClear, hj] <;>
    by_cases h : j = i <;> simp [h]

theorem testBit_bitWrite_self (r i : Nat) (b : Bool) (hi : i < 32) :
    (bitWrite r i b).testBit i = b := by
  simp [testBit_bitWrite r i b i hi]

/-- Reading back a field that was just written with a value that fits in the
field returns that value, whatever the register held before. -/
theorem fieldGet_fieldSet (r off w v : Nat) (hv : v < 2 ^ w)
    (hw : off + w ≤ 32) :
    fieldGet (fieldSet r off w v) off w = v := by
  apply Nat.eq_of_testBit_eq
  intro j
  by_cases hjw : j < w
  · have h32 : off + j < 32 := by omega
    have hoff : off ≤ off + j := Nat.le_add_right _ _
    simp [fieldGet, fieldSet, Nat.testBit_shiftLeft, testBit_allOnes32,
      hjw, h32, hoff, Nat.add_sub_cancel_left]
  · have hvj : v.testBit j = false :=
      Nat.testBit_lt_two_pow (lt_of_lt_of_le hv (Nat.pow_le_pow_right (by omega) (by omega)))
    simp [fieldGet, hjw, hvj]

/-- A field read always fits in the field width. -/
theorem fieldGet_lt (r off w : Nat) : fieldGet r off w < 2 ^ w := by
  have : (2 : Nat) ^ w - 1 < 2 ^ w := by
    have := Nat.pos_pow_of_pos (n := 2) w (by omega)
    omega
  exact Nat.and_lt_two_pow _ this

@[simp] theorem updBus_same (f : Bus → Nat) (b : Bus) (v : Nat) :
    updBus f b v b = v := by simp [updBus]

theorem updBus_other (f : Bus → Nat) (b : Bus) (v : Nat) (x : Bus)
    (h : x ≠ b) : updBus f b v x = f x := by simp [updBus, h]

@[simp] theorem updCcip_same (f : CcipReg → Nat) (c : CcipReg) (v : Nat) :
    updCcip f c v c = v := by simp [updCcip]

theorem updCcip_other (f : CcipReg → Nat) (c : CcipReg) (v : Nat)
    (x : CcipReg) (h : x ≠ c) : updCcip f c v x = f x := by
  simp [updCcip, h]

/-- In the table, no peripheral that belongs to a shared mux group also owns
an individual kernel clock mux. -/
theorem indivMuxesOf_eq_nil_of_groupOf (p : Peripheral) :
    ∀ g : MuxField, groupOf p = some g → indivMuxesOf p = [] := by
  cases p <;> decide

/-- Reading a mux field right after writing a valid selector code to it
returns exactly that code as a known source, whatever the register held
before. -/
theorem muxRead_muxWrite (L : Layout) (m : MuxField) (sel : Nat)
    (s : RCCState) (hsel : sel < 2 ^ L.muxWidth m)
    (hfit : L.muxOff m + L.muxWidth m ≤ 32)
    (hknown : L.selKnown m sel = true) :
    muxRead L m (muxWrite L m sel s) = MuxReadResult.val sel := by
  have h1 : (muxWrite L m sel s).ccip (ccipOf m)
      = fieldSet (s.ccip (ccipOf m)) (L.muxOff m) (L.muxWidth m) sel := by
    simp [muxWrite]
  simp [muxRead, h1, fieldGet_fieldSet _ _ _ _ hsel hfit, hknown]

/-- The `low_power` method never touches the kernel clock selection
registers. -/
theorem low_power_ccip (L : Layout) (p : Peripheral) (lpm : LowPowerMode)
    (s : RCCState) : (low_power L p lpm s).ccip = s.ccip := by
  unfold low_power
  by_cases h : hasAuto p <;> simp [h]

/-! ### The claims -/

/-- C2: for every peripheral `p` and every prior state of `p`'s bus enable
register word, `enable()` then `disable()` leaves `p`'s enable bit clear,
leaves every other bit of that 32-bit register word exactly as it was before
the two calls, each of the two masked read-modify-writes modifies only the
target bit, and no other register of the RCC is written. -/
theorem rec_C2 (L : Layout) (p : Peripheral) (s : RCCState)
    (hbit : L.enBit p < 32) :
    (((disable L p (enable L p s)).enr (busOf p)).testBit (L.enBit p) = false)
  ∧ (∀ j, j < 32 → j ≠ L.enBit p →
      ((disable L p (enable L p s)).enr (busOf p)).testBit j
        = ((s.enr (busOf p)).testBit j))
  ∧ (∀ j, j < 32 → j ≠ L.enBit p →
      ((enable L p s).enr (busOf p)).testBit j = ((s.enr (busOf p)).testBit j))
  ∧ (∀ b, b ≠ busOf p → (disable L p (enable L p s)).enr b = s.enr b)
  ∧ ((disable L p (enable L p s)).rstr = s.rstr)
  ∧ ((disable L p (enable L p s)).lpenr = s.lpenr)
  ∧ ((disable L p (enable L p s)).d3amr = s.d3amr)
  ∧ ((disable L p (enable L p s)).ccip = s.ccip) := by
  refine ⟨?_, ?_, ?_, ?_, rfl, rfl, rfl, rfl⟩
  · simp [disable, enable, testBit_bitClear _ _ _ hbit]
  · intro j hj hne
    simp [disable, enable, testBit_bitClear _ _ _ hj, testBit_bitSet, hne]
  · intro j hj hne
    simp [enable, testBit_bitSet, hne]
  · intro b hb
    simp [disable, enable, updBus_other _ _ _ _ hb]

/-- C2 witness: the theorem instantiated at `Dma1`, an address map and a
concrete register file state. -/
theorem rec_C2_witness :
    (demoLayout.enBit Peripheral.Dma1 < 32)
  ∧ (((disable demoLayout Peripheral.Dma1
        (enable demoLayout Peripheral.Dma1 demoState)).enr
        (busOf Peripheral.Dma1)).testBit (demoLayout.enBit Peripheral.Dma1)
        = false)
  ∧ (((disable demoLayout Peripheral.Dma1
        (enable demoLayout Peripheral.Dma1 demoState)).enr
        (busOf Peripheral.Dma1)).testBit 3
        = ((demoState.enr (busOf Peripheral.Dma1)).testBit 3)) :=
  ⟨by decide,
   (rec_C2 demoLayout Peripheral.Dma1 demoState (by decide)).1,
   (rec_C2 demoLayout Peripheral.Dma1 demoState (by decide)).2.1
     3 (by decide) (by decide)⟩

/-- C3: `reset()` commits exactly the write sequence [set, clear] to the
peripheral's RST bit, both writes inside the one critical section of the
single atomic action; the bit is clear in the last committed value (the value
immediately before the call returns) and in the state observed after the
call. -/
theorem rec_C3 (L : Layout) (p : Peripheral) (s : RCCState)
    (hbit : L.rstBit p < 32) :
    (reset L p s = reset_clear L p (reset_set L p s))
  ∧ (((reset_set L p s).rstr (busOf p)).testBit (L.rstBit p) = true)
  ∧ (((reset L p s).rstr (busOf p)).testBit (L.rstBit p) = false)
  ∧ (resetWriteSeq L p s =
      [bitSet (s.rstr (busOf p)) (L.rstBit p),
        bitClear (bitSet (s.rstr (busOf p)) (L.rstBit p)) (L.rstBit p)])
  ∧ (resetActs L p = [fun t => reset_clear L p (reset_set L p t)]) := by
  refine ⟨rfl, ?_, ?_, ?_, rfl⟩
  · simp [reset_set, testBit_bitSet]
  · simp [reset, reset_clear, reset_set, testBit_bitClear _ _ _ hbit]
  · simp [resetWriteSeq, reset, reset_clear, reset_set]

/-- C3 witness: the theorem instantiated at `Fdcan` and a concrete state. -/
theorem rec_C3_witness :
    (demoLayout.rstBit Peripheral.Fdcan < 32)
  ∧ (((reset_set demoLayout Peripheral.Fdcan demoState).rstr
        (busOf Peripheral.Fdcan)).testBit (demoLayout.rstBit Peripheral.Fdcan)
        = true)
  ∧ (((reset demoLayout Peripheral.Fdcan demoState).rstr
        (busOf Peripheral.Fdcan)).testBit (demoLayout.rstBit Peripheral.Fdcan)
        = false) :=
  ⟨by decide,
   (rec_C3 demoLayout Peripheral.Fdcan demoState (by decide)).2.1,
   (rec_C3 demoLayout Peripheral.Fdcan demoState (by decide)).2.2.1⟩

/-- C10: `reset()` writes only the reset register of the peripheral's bus:
the enable, low-power and autonomous registers and every kernel clock
selector field (hence the peripheral's EN, LPEN and AMEN bits and every mux
reading) are exactly as before the call, as are the reset registers of all
other buses. -/
theorem rec_C10 (L : Layout) (p : Peripheral) (s : RCCState) :
    ((reset L p s).enr = s.enr)
  ∧ ((reset L p s).lpenr = s.lpenr)
  ∧ ((reset L p s).d3amr = s.d3amr)
  ∧ ((reset L p s).ccip = s.ccip)
  ∧ (∀ b, b ≠ busOf p → (reset L p s).rstr b = s.rstr b)
  ∧ (∀ m, muxRead L m (reset L p s) = muxRead L m s)
  ∧ (((reset L p s).enr (busOf p)).testBit (L.enBit p)
      = ((s.enr (busOf p)).testBit (L.enBit p)))
  ∧ (((reset L p s).lpenr (busOf p)).testBit (L.lpenBit p)
      = ((s.lpenr (busOf p)).testBit (L.lpenBit p)))
  ∧ (((reset L p s).d3amr).testBit (L.amenBit p)
      = ((s.d3amr).testBit (L.amenBit p))) := by
  refine ⟨rfl, rfl, rfl, rfl, ?_, fun m => rfl, rfl, rfl, rfl⟩
  intro b hb
  simp [reset, reset_clear, reset_set, updBus_other _ _ _ _ hb]

/-- C10 witness: the theorem instantiated at `Spi1` with the frame fact
evaluated on another bus and on a mux field. -/
theorem rec_C10_witness :
    ((reset demoLayout Peripheral.Spi1 demoState).enr = demoState.enr)
  ∧ ((reset demoLayout Peripheral.Spi1 demoState).rstr Bus.AHB1
      = demoState.rstr Bus.AHB1)
  ∧ (muxRead demoLayout MuxField.Spi123 (reset demoLayout Peripheral.Spi1 demoState)
      = muxRead demoLayout MuxField.Spi123 demoState) :=
  ⟨(rec_C10 demoLayout Peripheral.Spi1 demoState).1,
   (rec_C10 demoLayout Peripheral.Spi1 demoState).2.2.2.2.1 Bus.AHB1 (by decide),
   (rec_C10 demoLayout Peripheral.Spi1 demoState).2.2.2.2.2.1 MuxField.Spi123⟩

/-- C4: `low_power(m)` writes the peripheral's LPEN bit to `m != Off`;
exactly when the peripheral carries the `(Auto)` flag it also writes the AMEN
bit to `m == Autonomous`; a peripheral without the flag gets no write to
`D3AMR` at all, and on such a peripheral `low_power(Autonomous)` has exactly
the effect of `low_power(Enabled)`. -/
theorem rec_C4 (L : Layout) (p : Peripheral) (lpm : LowPowerMode)
    (s : RCCState) (hlp : L.lpenBit p < 32) (ham : L.amenBit p < 32) :
    (((low_power L p lpm s).lpenr (busOf p)).testBit (L.lpenBit p)
      = decide (lpm ≠ LowPowerMode.Off))
  ∧ (hasAuto p = true →
      ((low_power L p lpm s).d3amr).testBit (L.amenBit p)
        = decide (lpm = LowPowerMode.Autonomous))
  ∧ (hasAuto p = false → (low_power L p lpm s).d3amr = s.d3amr)
  ∧ (hasAuto p = false →
      low_power L p LowPowerMode.Autonomous s
        = low_power L p LowPowerMode.Enabled s) := by
  refine ⟨?_, ?_, ?_, ?_⟩
  · by_cases h : hasAuto p <;>
      simp [low_power, h, testBit_bitWrite_self _ _ _ hlp]
  · intro h
    simp [low_power, h, testBit_bitWrite_self _ _ _ ham]
  · intro h
    simp [low_power, h]
  · intro h
    simp [low_power, h]

/-- C4 witness: the theorem instantiated at the autonomous peripheral `Bdma`
and the non-autonomous peripheral `Spi2`, each on a concrete state. -/
theorem rec_C4_witness :
    (demoLayout.lpenBit Peripheral.Bdma < 32
      ∧ demoLayout.amenBit Peripheral.Bdma < 32)
  ∧ (((low_power demoLayout Peripheral.Bdma LowPowerMode.Autonomous
        demoState).d3amr).testBit (demoLayout.amenBit Peripheral.Bdma)
      = decide (LowPowerMode.Autonomous = LowPowerMode.Autonomous))
  ∧ ((low_power demoLayout Peripheral.Spi2 LowPowerMode.Autonomous
        demoState).d3amr = demoState.d3amr)
  ∧ (low_power demoLayout Peripheral.Spi2 LowPowerMode.Autonomous demoState
      = low_power demoLayout Peripheral.Spi2 LowPowerMode.Enabled demoState) :=
  ⟨⟨by decide, by decide⟩,
   (rec_C4 demoLayout Peripheral.Bdma LowPowerMode.Autonomous demoState
      (by decide) (by decide)).2.1 (by decide),
   (rec_C4 demoLayout Peripheral.Spi2 LowPowerMode.Autonomous demoState
      (by decide) (by decide)).2.2.1 (by decide),
   (rec_C4 demoLayout Peripheral.Spi2 LowPowerMode.Autonomous demoState
      (by decide) (by decide)).2.2.2 (by decide)⟩

/-- C5: on a peripheral owning an individually-dedicated kernel clock
selector field, `get_kernel_<x>_mux()` called right after
`kernel_<x>_mux(sel)` returns `sel` (as the known enumerated source), for
every valid selector and every prior register content. -/
theorem rec_C5 (L : Layout) (p : Peripheral) (m : MuxField) (sel : Nat)
    (s : RCCState) (_hown : m ∈ indivMuxesOf p)
    (hsel : sel < 2 ^ L.muxWidth m)
    (hfit : L.muxOff m + L.muxWidth m ≤ 32)
    (hknown : L.selKnown m sel = true) :
    (get_kernel_x_mux L m (kernel_x_mux L m sel s)).1
      = MuxReadResult.val sel := by
  simpa [get_kernel_x_mux, kernel_x_mux] using
    muxRead_muxWrite L m sel s hsel hfit hknown

/-- C5 witness: the theorem instantiated at `Rng` and its own mux with
selector code 1. -/
theorem rec_C5_witness :
    (MuxField.Rng ∈ indivMuxesOf Peripheral.Rng
      ∧ 1 < 2 ^ demoLayout.muxWidth MuxField.Rng
      ∧ demoLayout.muxOff MuxField.Rng + demoLayout.muxWidth MuxField.Rng ≤ 32
      ∧ demoLayout.selKnown MuxField.Rng 1 = true)
  ∧ (get_kernel_x_mux demoLayout MuxField.Rng
      (kernel_x_mux demoLayout MuxField.Rng 1 demoState)).1
      = MuxReadResult.val 1 :=
  ⟨⟨by decide, by decide, by decide, by decide⟩,
   rec_C5 demoLayout Peripheral.Rng MuxField.Rng 1 demoState
     (by decide) (by decide) (by decide) (by decide)⟩

/-- C6: reading a kernel clock mux field never fails: the raw code always
fits the field, a code the PAC leaves reserved is returned as the distinct
unknown-raw outcome `res`, and a known outcome `val` is only ever the code
actually present in the field with its PAC enumeration entry — never a
fabricated source.  The getters on tokens and on group members both consist
of this read. -/
theorem rec_C6 (L : Layout) (m : MuxField) (s : RCCState) :
    (fieldGet (s.ccip (ccipOf m)) (L.muxOff m) (L.muxWidth m)
      < 2 ^ L.muxWidth m)
  ∧ (L.selKnown m (fieldGet (s.ccip (ccipOf m)) (L.muxOff m) (L.muxWidth m))
        = false →
      muxRead L m s = MuxReadResult.res
        (fieldGet (s.ccip (ccipOf m)) (L.muxOff m) (L.muxWidth m)))
  ∧ (∀ c, muxRead L m s = MuxReadResult.val c →
      L.selKnown m c = true
        ∧ c = fieldGet (s.ccip (ccipOf m)) (L.muxOff m) (L.muxWidth m))
  ∧ ((get_kernel_x_mux L m s).1 = muxRead L m s)
  ∧ ((get_kernel_clk_mux L m s).1 = muxRead L m s) := by
  refine ⟨fieldGet_lt _ _ _, ?_, ?_, rfl, rfl⟩
  · intro h
    simp [muxRead, h]
  · intro c h
    unfold muxRead at h
    by_cases hk : L.selKnown m
        (fieldGet (s.ccip (ccipOf m)) (L.muxOff m) (L.muxWidth m)) = true
    · simp [hk] at h
      exact ⟨h ▸ hk, h.symm⟩
    · simp [hk] at h

/-- C6 witness: a register state holding the reserved code 3 in the `Cec`
selector field reads as the distinct unknown-raw outcome. -/
theorem rec_C6_witness :
    (demoLayout.selKnown MuxField.Cec
        (fieldGet 48 (demoLayout.muxOff MuxField.Cec)
          (demoLayout.muxWidth MuxField.Cec)) = false)
  ∧ (muxRead demoLayout MuxField.Cec { demoState with ccip := fun _ => 48 }
      = MuxReadResult.res (fieldGet 48 (demoLayout.muxOff MuxField.Cec)
          (demoLayout.muxWidth MuxField.Cec))) :=
  ⟨by decide,
   (rec_C6 demoLayout MuxField.Cec
      { demoState with ccip := fun _ => 48 }).2.1 (by decide)⟩

/-- C1: for every shared mux group, after the registry's write entry point
`kernel_<group>_clk_mux(sel)` (hosted on `PeripheralREC`, demanding exclusive
access to it), `get_kernel_clk_mux()` on any member token returns `sel`; and
no method reachable on a member token writes the shared selector field —
in particular no setter for it exists on any member (the only mux setter a
token can carry is for an individually-owned field, and in the table no group
member owns one). -/
theorem rec_C1 (L : Layout) (g : MuxField) (p : Peripheral) (sel : Nat)
    (s s2 : RCCState) (hmem : groupOf p = some g)
    (hsel : sel < 2 ^ L.muxWidth g)
    (hfit : L.muxOff g + L.muxWidth g ≤ 32)
    (hknown : L.selKnown g sel = true) :
    ((get_kernel_clk_mux L g (kernel_xxxx_clk_mux L g sel s)).1
      = MuxReadResult.val sel)
  ∧ (∀ op : TokenOp, opAvail p op →
      (get_kernel_clk_mux L g (runTokenOp L p op s2)).1
        = (get_kernel_clk_mux L g s2).1) := by
  constructor
  · simpa [get_kernel_clk_mux, kernel_xxxx_clk_mux] using
      muxRead_muxWrite L g sel s hsel hfit hknown
  · intro op hav
    cases op with
    | enableOp => rfl
    | disableOp => rfl
    | resetOp => rfl
    | lowPowerOp lpm =>
        simp [get_kernel_clk_mux, muxRead, runTokenOp,
          low_power_ccip L p lpm s2]
    | kernelMuxOp m sel2 =>
        exfalso
        have hnil := indivMuxesOf_eq_nil_of_groupOf p g hmem
        rw [opAvail, hnil] at hav
        simp at hav

/-- C1 witness: the `I2c123` group written to code 1 through the registry and
read back through member `I2c1`; `enable` and `low_power` on the member leave
the group selector reading unchanged. -/
theorem rec_C1_witness :
    (groupOf Peripheral.I2c1 = some MuxField.I2c123
      ∧ 1 < 2 ^ demoLayout.muxWidth MuxField.I2c123
      ∧ demoLayout.muxOff MuxField.I2c123
          + demoLayout.muxWidth MuxField.I2c123 ≤ 32
      ∧ demoLayout.selKnown MuxField.I2c123 1 = true)
  ∧ ((get_kernel_clk_mux demoLayout MuxField.I2c123
      (kernel_xxxx_clk_mux demoLayout MuxField.I2c123 1 demoState)).1
      = MuxReadResult.val 1)
  ∧ ((get_kernel_clk_mux demoLayout MuxField.I2c123
      (runTokenOp demoLayout Peripheral.I2c1 TokenOp.enableOp demoState)).1
      = (get_kernel_clk_mux demoLayout MuxField.I2c123 demoState).1)
  ∧ ((get_kernel_clk_mux demoLayout MuxField.I2c123
      (runTokenOp demoLayout Peripheral.I2c1
        (TokenOp.lowPowerOp LowPowerMode.Off) demoState)).1
      = (get_kernel_clk_mux demoLayout MuxField.I2c123 demoState).1) :=
  ⟨⟨by decide, by decide, by decide, by decide⟩,
   (rec_C1 demoLayout MuxField.I2c123 Peripheral.I2c1 1 demoState demoState
      (by decide) (by decide) (by decide) (by decide)).1,
   (rec_C1 demoLayout MuxField.I2c123 Peripheral.I2c1 1 demoState demoState
      (by decide) (by decide) (by decide) (by decide)).2
      TokenOp.enableOp trivial,
   (rec_C1 demoLayout MuxField.I2c123 Peripheral.I2c1 1 demoState demoState
      (by decide) (by decide) (by decide) (by decide)).2
      (TokenOp.lowPowerOp LowPowerMode.Off) trivial⟩

/-- C7: the registry constructor fills exactly one named slot per peripheral
of the table with its token; moving the token out succeeds once, a second
move of the same slot is rejected whatever happened in between to that slot,
and moving other peripherals' tokens does not refill it. -/
theorem rec_C7 (p : Peripheral) :
    (new_singleton.present p = true)
  ∧ ((takeToken p new_singleton).1 = some ())
  ∧ (∀ rec : PeripheralREC, (takeToken p (takeToken p rec).2).1 = none)
  ∧ (∀ (rec : PeripheralREC) (q : Peripheral), q ≠ p →
      ((takeToken q rec).2).present p = rec.present p) := by
  refine ⟨rfl, rfl, ?_, ?_⟩
  · intro rec
    by_cases h : rec.present p = true <;> simp [takeToken, h]
  · intro rec q hq
    by_cases h : rec.present q = true <;> simp [takeToken, h, Ne.symm hq]

/-- C7 witness: the theorem instantiated at `Adc3`: its token exists and is
obtained once, a second take from the emptied registry is rejected, and
taking the `Gpioa` token does not refill the `Adc3` slot. -/
theorem rec_C7_witness :
    (new_singleton.present Peripheral.Adc3 = true)
  ∧ ((takeToken Peripheral.Adc3 new_singleton).1 = some ())
  ∧ ((takeToken Peripheral.Adc3
      (takeToken Peripheral.Adc3 new_singleton).2).1 = none)
  ∧ ((takeToken Peripheral.Gpioa new_singleton).2.present Peripheral.Adc3
      = new_singleton.present Peripheral.Adc3) :=
  ⟨(rec_C7 Peripheral.Adc3).1,
   (rec_C7 Peripheral.Adc3).2.1,
   (rec_C7 Peripheral.Adc3).2.2.1 new_singleton,
   (rec_C7 Peripheral.Adc3).2.2.2 new_singleton Peripheral.Gpioa (by decide)⟩

/-- C8: with `enable()` on X and `disable()` on Y in the same enable register
word each consisting of one atomic critical section, every order-preserving
interleaving of the two contexts ends with X's enable bit set and Y's enable
bit clear — neither masked read-modify-write loses the other's update. -/
theorem rec_C8 (L : Layout) (X Y : Peripheral) (s : RCCState)
    (hbus : busOf Y = busOf X)
    (hx : L.enBit X < 32) (hy : L.enBit Y < 32)
    (hne : L.enBit X ≠ L.enBit Y) :
    ∀ tr ∈ interleavings (enableActs L X) (disableActs L Y),
      (((runActs tr s).enr (busOf X)).testBit (L.enBit X) = true)
    ∧ (((runActs tr s).enr (busOf Y)).testBit (L.enBit Y) = false) := by
  intro tr htr
  have hne2 : L.enBit Y ≠ L.enBit X := Ne.symm hne
  have hint : interleavings (enableActs L X) (disableActs L Y)
      = [[fun t => enable L X t, fun t => disable L Y t],
          [fun t => disable L Y t, fun t => enable L X t]] := by
    simp [interleavings, enableActs, disableActs]
  rw [hint] at htr
  simp only [List.mem_cons, List.not_mem_nil, or_false] at htr
  rcases htr with h | h
  · subst h
    constructor
    · simp [runActs, enable, disable, hbus, testBit_bitClear _ _ _ hx,
        testBit_bitSet, hne]
    · simp [runActs, enable, disable, hbus, testBit_bitClear _ _ _ hy]
  · subst h
    constructor
    · simp [runActs, enable, disable, hbus, testBit_bitSet]
    · simp [runActs, enable, disable, hbus, testBit_bitClear _ _ _ hy,
        testBit_bitSet, hne2]

/-- C8 witness: `Dma1` enabled and `Dma2` disabled on the AHB1 word; the
interleaving in which the interrupt runs `disable` after the `enable`
critical section keeps both intended bit values. -/
theorem rec_C8_witness :
    (busOf Peripheral.Dma2 = busOf Peripheral.Dma1
      ∧ demoLayout.enBit Peripheral.Dma1 < 32
      ∧ demoLayout.enBit Peripheral.Dma2 < 32
      ∧ demoLayout.enBit Peripheral.Dma1 ≠ demoLayout.enBit Peripheral.Dma2)
  ∧ (((runActs [fun t => enable demoLayout Peripheral.Dma1 t,
        fun t => disable demoLayout Peripheral.Dma2 t] demoState).enr
        (busOf Peripheral.Dma1)).testBit (demoLayout.enBit Peripheral.Dma1)
        = true)
  ∧ (((runActs [fun t => enable demoLayout Peripheral.Dma1 t,
        fun t => disable demoLayout Peripheral.Dma2 t] demoState).enr
        (busOf Peripheral.Dma2)).testBit (demoLayout.enBit Peripheral.Dma2)
        = false) :=
  ⟨⟨by decide, by decide, by decide, by decide⟩,
   (rec_C8 demoLayout Peripheral.Dma1 Peripheral.Dma2 demoState
     (by decide) (by decide) (by decide) (by decide)
     [fun t => enable demoLayout Peripheral.Dma1 t,
       fun t => disable demoLayout Peripheral.Dma2 t]
     (by simp [interleavings, enableActs, disableActs])).1,
   (rec_C8 demoLayout Peripheral.Dma1 Peripheral.Dma2 demoState
     (by decide) (by decide) (by decide) (by decide)
     [fun t => enable demoLayout Peripheral.Dma1 t,
       fun t => disable demoLayout Peripheral.Dma2 t]
     (by simp [interleavings, enableActs, disableActs])).2⟩

/-- C9: both kernel clock mux getters take the token by shared reference and
perform no register write: the state of every RCC register after the call is
exactly the state before it. -/
theorem rec_C9 (L : Layout) (m : MuxField) (s : RCCState) :
    ((get_kernel_x_mux L m s).2 = s) ∧ ((get_kernel_clk_mux L m s).2 = s) :=
  ⟨rfl, rfl⟩

/-- C9 witness: the theorem instantiated at the `Fdcan` mux and the
`Usart16` group on a concrete state. -/
theorem rec_C9_witness :
    ((get_kernel_x_mux demoLayout MuxField.Fdcan demoState).2 = demoState)
  ∧ ((get_kernel_clk_mux demoLayout MuxField.Usart16 demoState).2
      = demoState) :=
  ⟨(rec_C9 demoLayout MuxField.Fdcan demoState).1,
   (rec_C9 demoLayout MuxField.Usart16 demoState).2⟩

end Rec

